import Mathlib

/-!
Verification of the deduplicating file-metadata service.

This development shallowly embeds the five request handlers of the
repository (`upload_file`, `get_metadata`, `get_file`, `get_hashes`,
`get_stats`, each a `lambda_handler` in `src/`) as pure Lean functions
over an explicit system state, and proves or refutes the frozen claims
about them.

Modelling conventions:
- Bytes are `Nat` values below 256; machine words are `Nat` with
  explicit reduction modulo 2 ^ 32 where the source wraps.
- The two DynamoDB tables (metadata records and the counters
  singleton) and the S3 bucket are explicit fields of `SysState`.
  Store calls are modelled by their documented contract: a point
  lookup or scan reads the state, `put_item` appends, the counter
  `update_item` is an atomic increment.  Store outages are not
  modelled; every branch the handlers take on a healthy store is.
- `uuid.uuid4()` and `datetime.utcnow()` are modelled by a fresh-name
  counter and a clock string carried in the state.
- The upload handler additionally returns the list of store-mutating
  calls it issued, in program order, so that ordering claims about
  blob writes versus metadata writes can be stated.
-/

set_option maxRecDepth 100000

namespace Dedup

/-! ## SHA-256 (the `hashlib.sha256(file_bytes).hexdigest()` call of
`src/upload_file/lambda_function.py`, line 89), per FIPS 180-4 -/

/-- Reduce a `Nat` to a 32-bit word. -/
def mask32 (x : Nat) : Nat := x % 4294967296

/-- 32-bit right rotation. -/
def rotr32 (n x : Nat) : Nat := mask32 ((x >>> n) ||| (x <<< (32 - n)))

def sumBig0 (x : Nat) : Nat := rotr32 2 x ^^^ rotr32 13 x ^^^ rotr32 22 x

def sumBig1 (x : Nat) : Nat := rotr32 6 x ^^^ rotr32 11 x ^^^ rotr32 25 x

def sumSmall0 (x : Nat) : Nat := rotr32 7 x ^^^ rotr32 18 x ^^^ (x >>> 3)

def sumSmall1 (x : Nat) : Nat := rotr32 17 x ^^^ rotr32 19 x ^^^ (x >>> 10)

def chFn (e f g : Nat) : Nat := (e &&& f) ^^^ ((e ^^^ 4294967295) &&& g)

def majFn (a b c : Nat) : Nat := (a &&& b) ^^^ (a &&& c) ^^^ (b &&& c)

/-- The 64 SHA-256 round constants (FIPS 180-4 §4.2.2, in decimal). -/
def roundK : List Nat :=
  [1116352408, 1899447441, 3049323471, 3921009573, 961987163,
   1508970993, 2453635748, 2870763221, 3624381080, 310598401,
   607225278, 1426881987, 1925078388, 2162078206, 2614888103,
   3248222580, 3835390401, 4022224774, 264347078, 604807628,
   770255983, 1249150122, 1555081692, 1996064986, 2554220882,
   2821834349, 2952996808, 3210313671, 3336571891, 3584528711,
   113926993, 338241895, 666307205, 773529912, 1294757372,
   1396182291, 1695183700, 1986661051, 2177026350, 2456956037,
   2730485921, 2820302411, 3259730800, 3345764771, 3516065817,
   3600352804, 4094571909, 275423344, 430227734, 506948616,
   659060556, 883997877, 958139571, 1322822218, 1537002063,
   1747873779, 1955562222, 2024104815, 2227730452, 2361852424,
   2428436474, 2756734187, 3204031479, 3329325298]

/-- The eight 32-bit words of a SHA-256 state. -/
structure Hash8 where
  a : Nat
  b : Nat
  c : Nat
  d : Nat
  e : Nat
  f : Nat
  g : Nat
  h : Nat
deriving DecidableEq, Repr

/-- SHA-256 initial state (FIPS 180-4 §5.3.3, in decimal). -/
def iv : Hash8 :=
  ⟨1779033703, 3144134277, 1013904242, 2773480762,
   1359893119, 2600822924, 528734635, 1541459225⟩

/-- One SHA-256 compression round. -/
def compressStep (s : Hash8) (kw : Nat × Nat) : Hash8 :=
  let t1 := mask32 (s.h + sumBig1 s.e + chFn s.e s.f s.g + kw.1 + kw.2)
  let t2 := mask32 (sumBig0 s.a + majFn s.a s.b s.c)
  ⟨mask32 (t1 + t2), s.a, s.b, s.c, mask32 (s.d + t1), s.e, s.f, s.g⟩

/-- Combine four bytes into a big-endian 32-bit word. -/
def word4 (a b c d : Nat) : Nat := (a <<< 24) ||| (b <<< 16) ||| (c <<< 8) ||| d

/-- Group a byte list into big-endian words (four bytes each). -/
def bytesToWords : List Nat → List Nat
  | a :: b :: c :: d :: rest => word4 a b c d :: bytesToWords rest
  | _ => []

/-- Extend the 16 words of a chunk to the 64-word message schedule. -/
def extendWords (ws : Array Nat) : Array Nat :=
  (List.range 48).foldl
    (fun ws i =>
      ws.push (mask32 (sumSmall1 (ws.getD (i + 14) 0) + ws.getD (i + 9) 0 +
        sumSmall0 (ws.getD (i + 1) 0) + ws.getD i 0)))
    ws

/-- Word-wise modular addition of two states. -/
def hash8Add (s t : Hash8) : Hash8 :=
  ⟨mask32 (s.a + t.a), mask32 (s.b + t.b), mask32 (s.c + t.c), mask32 (s.d + t.d),
   mask32 (s.e + t.e), mask32 (s.f + t.f), mask32 (s.g + t.g), mask32 (s.h + t.h)⟩

/-- Compress one 64-byte chunk into the running state. -/
def compressChunk (s : Hash8) (chunk : List Nat) : Hash8 :=
  let ws := extendWords (Array.mk (bytesToWords chunk))
  hash8Add s ((ws.toList.zip roundK).foldl compressStep s)

/-- Big-endian bytes of the 64-bit message bit length. -/
def lenBytes64 (bl : Nat) : List Nat :=
  [(bl >>> 56) % 256, (bl >>> 48) % 256, (bl >>> 40) % 256, (bl >>> 32) % 256,
   (bl >>> 24) % 256, (bl >>> 16) % 256, (bl >>> 8) % 256, bl % 256]

/-- SHA-256 padding: append 0x80, zeros, and the 64-bit bit length. -/
def padBytes (msg : List Nat) : List Nat :=
  let l := msg.length
  let zeros := (120 - (l + 1) % 64) % 64
  msg ++ 0x80 :: List.replicate zeros 0 ++ lenBytes64 (8 * l)

/-- Split a byte list into 64-byte chunks (structural recursion on a
fuel argument so that concrete hashes reduce definitionally). -/
def chunks64Go : Nat → List Nat → List (List Nat)
  | 0, _ => []
  | _ + 1, [] => []
  | n + 1, x :: xs => (x :: xs).take 64 :: chunks64Go n ((x :: xs).drop 64)

/-- Split a byte list into 64-byte chunks. -/
def chunks64 (l : List Nat) : List (List Nat) := chunks64Go l.length l

/-- The SHA-256 state after absorbing a whole message. -/
def sha256Words (msg : List Nat) : Hash8 :=
  (chunks64 (padBytes msg)).foldl compressChunk iv

/-- Lowercase hex digit. -/
def hexLower (n : Nat) : Char :=
  if n < 10 then Char.ofNat (48 + n) else Char.ofNat (87 + n)

/-- Eight lowercase hex digits of a 32-bit word, most significant first. -/
def wordHex (w : Nat) : List Char :=
  [hexLower ((w >>> 28) % 16), hexLower ((w >>> 24) % 16), hexLower ((w >>> 20) % 16),
   hexLower ((w >>> 16) % 16), hexLower ((w >>> 12) % 16), hexLower ((w >>> 8) % 16),
   hexLower ((w >>> 4) % 16), hexLower (w % 16)]

/-- Hex rendering of a SHA-256 state, as `hexdigest()` returns it. -/
def hash8Hex (s : Hash8) : String :=
  String.mk (wordHex s.a ++ wordHex s.b ++ wordHex s.c ++ wordHex s.d ++
             wordHex s.e ++ wordHex s.f ++ wordHex s.g ++ wordHex s.h)

/-- `hashlib.sha256(bytes).hexdigest()`. -/
def sha256Hex (msg : List Nat) : String := hash8Hex (sha256Words msg)

/-- Sanity check against the published SHA-256 vector for the empty message. -/
theorem sha256Hex_empty :
    sha256Hex [] = "e3b0c44298fc1c149afbf4c8996fb92427ae41e4649b934ca495991b7852b855" := by
  rfl

/-- Sanity check against the published SHA-256 vector for `b"abc"`. -/
theorem sha256Hex_abc :
    sha256Hex [97, 98, 99] =
      "ba7816bf8f01cfea414140de5dae2223b00361a396177a9cb410ff61f20015ad" := by
  rfl

/-! ## UTF-8 encoding (the `body.encode('utf-8')` call of
`src/upload_file/lambda_function.py`, line 75) -/

/-- UTF-8 bytes of one scalar value (`Char` excludes surrogates, as
Python `str` code points that `encode('utf-8')` accepts). -/
def utf8Char (c : Char) : List Nat :=
  let n := c.toNat
  if n < 0x80 then [n]
  else if n < 0x800 then
    [0xc0 ||| (n >>> 6), 0x80 ||| (n &&& 0x3f)]
  else if n < 0x10000 then
    [0xe0 ||| (n >>> 12), 0x80 ||| ((n >>> 6) &&& 0x3f), 0x80 ||| (n &&& 0x3f)]
  else
    [0xf0 ||| (n >>> 18), 0x80 ||| ((n >>> 12) &&& 0x3f),
     0x80 ||| ((n >>> 6) &&& 0x3f), 0x80 ||| (n &&& 0x3f)]

/-- UTF-8 bytes of a string. -/
def utf8Bytes (s : String) : List Nat := (s.data.map utf8Char).flatten

/-! ## Base64 decoding (the `base64.b64decode(body)` call of
`src/upload_file/lambda_function.py`, line 73) -/

/-- Value of one base64 alphabet character. -/
def b64Val (c : Char) : Option Nat :=
  let n := c.toNat
  if 65 ≤ n && n ≤ 90 then some (n - 65)
  else if 97 ≤ n && n ≤ 122 then some (n - 71)
  else if 48 ≤ n && n ≤ 57 then some (n + 4)
  else if n = 43 then some 62
  else if n = 47 then some 63
  else none

/-- Reassemble decoded 6-bit groups into bytes: full quads give three
bytes, a trailing pair or triple gives one or two bytes. -/
def b64Assemble : List Nat → List Nat
  | a :: b :: c :: d :: rest =>
    ((a <<< 2) ||| (b >>> 4)) :: (((b &&& 15) <<< 4) ||| (c >>> 2)) ::
      (((c &&& 3) <<< 6) ||| d) :: b64Assemble rest
  | [a, b] => [(a <<< 2) ||| (b >>> 4)]
  | [a, b, c] => [((a <<< 2) ||| (b >>> 4)), (((b &&& 15) <<< 4) ||| (c >>> 2))]
  | _ => []

/-- `base64.b64decode` with default (non-validating) settings:
characters outside the alphabet are discarded, then the quantum of
alphabet characters plus padding must be a multiple of four. -/
def b64decode (s : String) : Option (List Nat) :=
  let kept := s.data.filter (fun c => (b64Val c).isSome || c = '=')
  let mainPart := kept.takeWhile (fun c => c ≠ '=')
  let padPart := kept.dropWhile (fun c => c ≠ '=')
  let vals := mainPart.filterMap b64Val
  if padPart.all (fun c => c = '=') && padPart.length ≤ 2 &&
      (vals.length + padPart.length) % 4 = 0 && vals.length % 4 ≠ 1 then
    some (b64Assemble vals)
  else
    none

/-! ## Percent encoding (`urllib.parse.quote_plus` / `unquote_plus`,
used by `src/get_hashes/lambda_function.py` lines 40 and 82) -/

/-- Characters `quote_plus` never escapes: letters, digits, `_.-~`. -/
def alwaysSafe (c : Char) : Bool :=
  let n := c.toNat
  (65 ≤ n && n ≤ 90) || (97 ≤ n && n ≤ 122) || (48 ≤ n && n ≤ 57) ||
    n = 95 || n = 46 || n = 45 || n = 126

/-- Uppercase hex digit, as `quote` emits. -/
def hexUpper (n : Nat) : Char :=
  if n < 10 then Char.ofNat (48 + n) else Char.ofNat (55 + n)

/-- `quote_plus` on a single (ASCII) character. -/
def quotePlusChar (c : Char) : List Char :=
  if alwaysSafe c then [c]
  else if c = ' ' then ['+']
  else ['%', hexUpper (c.toNat / 16), hexUpper (c.toNat % 16)]

/-- `urllib.parse.quote_plus`, restricted to ASCII payloads (non-ASCII
would first be UTF-8 expanded; the tokens this service quotes are
ASCII JSON). -/
def quotePlus (cs : List Char) : List Char := (cs.map quotePlusChar).flatten

/-- Value of a hex digit, either case. -/
def hexVal (c : Char) : Option Nat :=
  let n := c.toNat
  if 48 ≤ n && n ≤ 57 then some (n - 48)
  else if 65 ≤ n && n ≤ 70 then some (n - 55)
  else if 97 ≤ n && n ≤ 102 then some (n - 87)
  else none

/-- `urllib.parse.unquote_plus`: `+` becomes space, `%XX` becomes the
byte `XX`, malformed escapes pass through unchanged. -/
def unquotePlus : List Char → List Char
  | [] => []
  | c :: rest =>
    if c = '+' then ' ' :: unquotePlus rest
    else if c = '%' then
      match rest with
      | a :: b :: rest2 =>
        match hexVal a, hexVal b with
        | some x, some y => Char.ofNat (16 * x + y) :: unquotePlus rest2
        | _, _ => c :: unquotePlus (a :: b :: rest2)
      | short => c :: unquotePlus short
    else c :: unquotePlus rest
termination_by l => l.length
decreasing_by
  all_goals simp
  all_goals omega

/-! ## The pagination cursor codec of `src/get_hashes/lambda_function.py`.

A DynamoDB `LastEvaluatedKey` for this table is the dict
`{'file_id': <string>}`.  Line 82 emits
`quote_plus(json.dumps(lek))`; line 40 recovers it with
`json.loads(unquote_plus(token))`.  `json.dumps` / `json.loads` are
modelled for exactly this object shape (one string field named
`file_id`), with the two escapes `\"` and `\\` that `dumps` produces
for printable-ASCII content. -/

/-- JSON string-body escaping for printable ASCII content. -/
def jsonEsc (c : Char) : List Char :=
  if c = '"' then ['\\', '"'] else if c = '\\' then ['\\', '\\'] else [c]

/-- `json.dumps({'file_id': k})` for printable-ASCII `k`. -/
def jsonDumpsLek (k : String) : String :=
  String.mk ("\x7b\"file_id\": \"".data ++ (k.data.map jsonEsc).flatten ++ "\"\x7d".data)

/-- Parse a JSON string body up to its closing quote. -/
def parseStrBody : List Char → List Char → Option (List Char × List Char)
  | [], _ => none
  | c :: rest, acc =>
    if c = '"' then some (acc.reverse, rest)
    else if c = '\\' then
      match rest with
      | [] => none
      | e :: rest2 =>
        if e = '"' || e = '\\' then parseStrBody rest2 (e :: acc) else none
    else parseStrBody rest (c :: acc)

/-- Drop an expected literal character sequence. -/
def dropLit : List Char → List Char → Option (List Char)
  | [], cs => some cs
  | _ :: _, [] => none
  | p :: ps, c :: cs => if c = p then dropLit ps cs else none

/-- `json.loads` restricted to the `{'file_id': <string>}` shape the
service serializes. -/
def jsonLoadsLek (s : String) : Option String :=
  match dropLit "\x7b\"file_id\": \"".data s.data with
  | none => none
  | some rest =>
    match parseStrBody rest [] with
    | none => none
    | some (v, rest2) => if rest2 = ['\x7d'] then some (String.mk v) else none

/-- The next-page token the listing handler emits for a resume key
(`quote_plus(json.dumps(...))`, line 82). -/
def encodeCursor (k : String) : String := String.mk (quotePlus (jsonDumpsLek k).data)

/-- How the listing handler reads an incoming token
(`json.loads(unquote_plus(...))`, line 40). -/
def decodeCursor (t : String) : Option String :=
  jsonLoadsLek (String.mk (unquotePlus t.data))

/-! ## Integer parsing and printing (`int(...)` on the `limit` query
parameter, `src/get_hashes/lambda_function.py` line 38, and the
f-string rendering on line 82) -/

/-- Accumulate decimal digits; `none` when empty or a non-digit occurs. -/
def digitsVal (cs : List Char) : Option Nat :=
  if cs = [] then none
  else if cs.all (fun c => 48 ≤ c.toNat && c.toNat ≤ 57) then
    some (cs.foldl (fun a c => 10 * a + (c.toNat - 48)) 0)
  else none

/-- Python `int(str)` on an optionally signed decimal literal. -/
def parseInt (s : String) : Option Int :=
  match s.data with
  | [] => none
  | c :: rest =>
    if c = '-' then (digitsVal rest).map (fun n => -(n : Int))
    else if c = '+' then (digitsVal rest).map (fun n => (n : Int))
    else (digitsVal (c :: rest)).map (fun n => (n : Int))

/-- Decimal digits of a natural number, most significant first. -/
def natToChars (n : Nat) : List Char :=
  if h : n < 10 then [Char.ofNat (48 + n)]
  else natToChars (n / 10) ++ [Char.ofNat (48 + n % 10)]
termination_by n
decreasing_by
  exact Nat.div_lt_self (by omega) (by omega)

/-- Decimal rendering of a natural number. -/
def natToString (n : Nat) : String := String.mk (natToChars n)

/-- Decimal rendering of an integer, as an f-string renders it. -/
def intToString (i : Int) : String :=
  if i < 0 then "-" ++ natToString i.natAbs else natToString i.toNat

/-! ## Data model -/

/-- One metadata item, with exactly the attributes
`src/upload_file/lambda_function.py` lines 152-161 persist. -/
structure FileRecord where
  file_id : String
  name : String
  size : Nat
  type : String
  hash : String
  created_at : String
  s3_key : String
  download_url : String
deriving DecidableEq, Repr

/-- The `deduplication_stats` item of the counters table, zero when it
has not been created yet (the `if_not_exists(..., :zero)` update
expression makes the two readings indistinguishable). -/
structure Counters where
  duplicates_avoided : Nat
  total_s3_size_saved : Nat
deriving DecidableEq, Repr

/-- The persistent world the handlers share: the metadata table (in
scan order), the S3 bucket contents, the counters item, plus the
environment the runtime supplies (fresh uuids, the clock, the bucket
name). -/
structure SysState where
  meta : List FileRecord
  blobs : List (String × List Nat)
  counters : Counters
  fresh : Nat
  now : String
  bucket : String
deriving DecidableEq, Repr

/-- A fresh `uuid.uuid4()` drawn from the supply. -/
def freshId (n : Nat) : String := "uuid-" ++ natToString n

/-- Look a key up in a string-keyed dict (headers, path or query
parameters). -/
def lookupParam (m : List (String × String)) (k : String) : Option String :=
  (m.find? (fun p => p.1 == k)).map (fun p => p.2)

/-! ## Upload handler (`src/upload_file/lambda_function.py`)

An incoming event is dict-shaped with an optional `body`, an optional
`headers` member (`some none` models a `headers` member that is not a
dict), and the `isBase64Encoded` flag.  The handler returns its
outcome, the successor state, and the list of store-mutating calls in
the order the code issues them. -/

structure UploadEvent where
  body : Option String
  headers : Option (Option (List (String × String)))
  isBase64Encoded : Bool
deriving DecidableEq, Repr

/-- The upload responses: `clientError` is a 400, `duplicate` the 409
with the existing item, `created` the 201 with the new item. -/
inductive UploadOutcome where
  | clientError (msg : String)
  | duplicate (r : FileRecord)
  | created (r : FileRecord)
deriving DecidableEq, Repr

/-- A store-mutating or store-reading call of the upload handler. -/
inductive Action where
  | metaGetByHash (h : String)
  | counterIncrement (inc : Nat) (size : Nat)
  | blobPut (key : String) (bytes : List Nat)
  | metaPut (r : FileRecord)
deriving DecidableEq, Repr

/-- Lines 69-81: decode the payload per the declared transfer encoding. -/
def decodeBody (isB64 : Bool) (body : String) : Option (List Nat) :=
  if isB64 then b64decode body else some (utf8Bytes body)

/-- The payload bytes an event carries, if its body is present and
decodable (the handler rejects the event otherwise). -/
def decodePayload (e : UploadEvent) : Option (List Nat) :=
  match e.body with
  | none => none
  | some body => decodeBody e.isBase64Encoded body

/-- The content hash the handler would compute for an event (line 89),
a function of the decoded payload bytes alone. -/
def contentHashOf (e : UploadEvent) : Option String :=
  (decodePayload e).map sha256Hex

/-- Line 84: `headers.get('filename') or f"{uuid4()}.bin"` — an absent
or empty name falls back to a fresh uuid, consuming one fresh id. -/
def chooseFilename (hs : List (String × String)) (fresh : Nat) : String × Nat :=
  match lookupParam hs "filename" with
  | some v => if v = "" then (freshId fresh ++ ".bin", fresh + 1) else (v, fresh)
  | none => (freshId fresh ++ ".bin", fresh + 1)

/-- Line 85: `headers.get('content-type', 'application/octet-stream')`. -/
def chooseContentType (hs : List (String × String)) : String :=
  match lookupParam hs "content-type" with
  | some v => v
  | none => "application/octet-stream"

/-- The duplicate branch (lines 106-127): bump the counters, return
the existing item with 409; the blob is never touched. -/
def uploadDup (s : SysState) (bytes : List Nat) (existing : FileRecord) :
    UploadOutcome × SysState × List Action :=
  (.duplicate existing,
   { s with counters :=
      ⟨s.counters.duplicates_avoided + 1,
       s.counters.total_s3_size_saved + bytes.length⟩ },
   [.metaGetByHash (sha256Hex bytes), .counterIncrement 1 bytes.length])

/-- The new-file branch (lines 129-178): S3 `put_object` first, then
the metadata `put_item`, then 201 with the new item. -/
def uploadNew (s : SysState) (hs : List (String × String)) (bytes : List Nat) :
    UploadOutcome × SysState × List Action :=
  let fileHash := sha256Hex bytes
  let fn := chooseFilename hs s.fresh
  let contentType := chooseContentType hs
  let s3Key := "files/" ++ fileHash ++ "/" ++ fn.1
  let fileId := freshId fn.2
  let rec0 : FileRecord :=
    { file_id := fileId, name := fn.1, size := bytes.length,
      type := contentType, hash := fileHash, created_at := s.now,
      s3_key := s3Key,
      download_url := "https://" ++ s.bucket ++ ".s3.amazonaws.com/" ++ s3Key }
  (.created rec0,
   { s with meta := s.meta ++ [rec0],
            blobs := s.blobs ++ [(s3Key, bytes)],
            fresh := fn.2 + 1 },
   [.metaGetByHash fileHash, .blobPut s3Key bytes, .metaPut rec0])

/-- `lambda_handler` of `src/upload_file/lambda_function.py`.
The duplicate check (lines 92-103) is `get_item` keyed by `hash` with
a fall back to a filtered scan; on this table (keyed by `file_id`)
both reduce to: the first record whose `hash` attribute equals the
digest.  On the new-file path the code uploads to S3 (line 132) and
then writes the metadata item with a plain `put_item` (line 163). -/
def uploadRun (s : SysState) (e : UploadEvent) :
    UploadOutcome × SysState × List Action :=
  match e.body with
  | none => (.clientError "No file content provided", s, [])
  | some body =>
    match e.headers with
    | none => (.clientError "Missing or invalid headers", s, [])
    | some none => (.clientError "Missing or invalid headers", s, [])
    | some (some hs) =>
      match decodeBody e.isBase64Encoded body with
      | none => (.clientError "Failed to decode file content", s, [])
      | some bytes =>
        match s.meta.find? (fun r => r.hash == sha256Hex bytes) with
        | some existing => uploadDup s bytes existing
        | none => uploadNew s hs bytes

/-! ## Retrieval handlers (`src/get_metadata` and `src/get_file`) -/

/-- A dict-shaped event with an optional `pathParameters` member;
`some none` models `pathParameters: null`, on which Python's
`event.get('pathParameters', {}).get('id')` raises `AttributeError`. -/
structure PathEvent where
  pathParameters : Option (Option (List (String × String)))
deriving DecidableEq, Repr

inductive PyErr where
  | attributeError
deriving DecidableEq, Repr

inductive GetMetaOutcome where
  | badRequest
  | found (r : FileRecord)
  | notFound
  | serverError
deriving DecidableEq, Repr

/-- `lambda_handler` of `src/get_metadata/lambda_function.py`: the id
extraction happens inside the `try`, so a `pathParameters: null`
event surfaces as the 500 of the catch-all handler (line 46). -/
def getMetadataResult (s : SysState) (e : PathEvent) : GetMetaOutcome :=
  match e.pathParameters with
  | some none => .serverError
  | none => .badRequest
  | some (some m) =>
    match lookupParam m "id" with
    | none => .badRequest
    | some v =>
      match s.meta.find? (fun r => r.file_id == v) with
      | some r => .found r
      | none => .notFound

/-- The metadata handler issues only reads, so the state it leaves
behind is the state it was given. -/
def getMetadataRun (s : SysState) (e : PathEvent) : GetMetaOutcome × SysState :=
  (getMetadataResult s e, s)

/-- The presigned-URL request `get_file` makes (line 31): bucket, key
and the fixed `ExpiresIn=3600`. -/
structure PresignReq where
  bucket : String
  key : String
  expiresIn : Nat
deriving DecidableEq, Repr

inductive GetFileOutcome where
  | badRequest
  | notFound
  | success (presign : PresignReq) (filename : String) (size : Nat)
deriving DecidableEq, Repr

/-- `lambda_handler` of `src/get_file/lambda_function.py`: the id is
extracted before the `try` block (line 10), so a
`pathParameters: null` event raises an uncaught `AttributeError`;
`if not file_id` also rejects an empty id.  The stored items carry a
`name` attribute, so `resp['Item'].get("filename", "file")` always
yields the default `"file"`. -/
def getFileResult (s : SysState) (e : PathEvent) : Except PyErr GetFileOutcome :=
  match e.pathParameters with
  | some none => .error .attributeError
  | none => .ok .badRequest
  | some (some m) =>
    match lookupParam m "id" with
    | none => .ok .badRequest
    | some v =>
      if v = "" then .ok .badRequest
      else
        match s.meta.find? (fun r => r.file_id == v) with
        | none => .ok .notFound
        | some r => .ok (.success ⟨s.bucket, r.s3_key, 3600⟩ "file" r.size)

/-- The download handler issues only reads. -/
def getFileRun (s : SysState) (e : PathEvent) :
    Except PyErr GetFileOutcome × SysState :=
  (getFileResult s e, s)

/-! ## Listing handler (`src/get_hashes/lambda_function.py`) -/

/-- A dict-shaped event with optional query parameters (`None` and an
absent member both collapse to `{}` through the `or {}` on line 37). -/
structure QueryEvent where
  queryStringParameters : Option (List (String × String))
deriving DecidableEq, Repr

inductive ListOutcome where
  | ok (items : List FileRecord) (next_page : Option String)
  | serverError
deriving DecidableEq, Repr

/-- Line 38: `int(params.get('limit', 10))` — the page size the scan
is asked for; `none` when `int()` raises. -/
def requestedLimit (e : QueryEvent) : Option Int :=
  match lookupParam (e.queryStringParameters.getD []) "limit" with
  | none => some 10
  | some str => parseInt str

/-- Records of the table strictly after the one carrying the resume
key (how a DynamoDB scan resumes from an `ExclusiveStartKey`). -/
def afterKey (l : List FileRecord) (k : String) : List FileRecord :=
  match l with
  | [] => []
  | r :: rs => if r.file_id == k then rs else afterKey rs k

/-- One `scan` page: up to `limit` records from the resume position,
plus the `LastEvaluatedKey` when the table was not exhausted. -/
def scanPage (meta : List FileRecord) (start : Option String) (limit : Nat) :
    List FileRecord × Option String :=
  let l1 := match start with
    | none => meta
    | some k => afterKey meta k
  let items := l1.take limit
  if l1.drop limit = [] then (items, none)
  else (items, (items.getLast?).map (fun r => r.file_id))

/-- `lambda_handler` of `src/get_hashes/lambda_function.py`: parse the
limit (line 38), then the cursor (lines 39-42), scan, and emit the
items together with a `next_page` token when the scan reported a
`LastEvaluatedKey` (lines 81-82).  Any raised error is caught and
becomes the 500 of line 92.  DynamoDB rejects a non-positive `Limit`,
which surfaces the same way. -/
def getHashesResult (s : SysState) (e : QueryEvent) : ListOutcome :=
  let params := e.queryStringParameters.getD []
  match requestedLimit e with
  | none => .serverError
  | some lim =>
    let cursor : Option (Option String) :=
      match lookupParam params "last_evaluated_key" with
      | none => some none
      | some t =>
        match decodeCursor t with
        | none => none
        | some k => some (some k)
    match cursor with
    | none => .serverError
    | some start =>
      if lim < 1 then .serverError
      else
        let page := scanPage s.meta start lim.toNat
        .ok page.1
          ((page.2).map (fun k =>
            "?limit=" ++ intToString lim ++ "&last_evaluated_key=" ++ encodeCursor k))

/-- The listing handler issues only reads. -/
def getHashesRun (s : SysState) (e : QueryEvent) : ListOutcome × SysState :=
  (getHashesResult s e, s)

/-! ## Stats handler (`src/get_stats/lambda_function.py`) -/

structure StatsOutcome where
  total_files : Nat
  duplicates_avoided : Nat
  total_s3_size_saved : Nat
deriving DecidableEq, Repr

/-- `lambda_handler` of `src/get_stats/lambda_function.py`:
`total_files` is the cardinality of the set of distinct `hash`
attributes (line 48); both counters are read from the counters item
with default 0 (lines 55-56). -/
def getStatsResult (s : SysState) : StatsOutcome :=
  ⟨(s.meta.map (fun r => r.hash)).dedup.length,
   s.counters.duplicates_avoided,
   s.counters.total_s3_size_saved⟩

/-- The stats handler issues only reads. -/
def getStatsRun (s : SysState) : StatsOutcome × SysState :=
  (getStatsResult s, s)

/-! ## Round-trip of the pagination cursor codec -/

theorem toNat_ofNat_small (n : Nat) (h : n < 55296) : (Char.ofNat n).toNat = n := by
  have hv : n.isValidChar := Or.inl h
  simp only [Char.ofNat, hv, dif_pos, Char.ofNatAux, Char.toNat, UInt32.toNat]
  simp [BitVec.toNat_ofNat]

theorem hexVal_hexUpper : ∀ n < 16, hexVal (hexUpper n) = some n := by decide

theorem alwaysSafe_ne (c : Char) (hs : alwaysSafe c = true) : c ≠ '+' ∧ c ≠ '%' := by
  constructor <;> rintro rfl <;> exact absurd hs (by decide)

theorem unquotePlus_nil : unquotePlus [] = [] := by
  rw [unquotePlus.eq_def]

theorem unquotePlus_plus (t : List Char) :
    unquotePlus ('+' :: t) = ' ' :: unquotePlus t := by
  rw [unquotePlus.eq_def]
  rfl

theorem unquotePlus_plain (c : Char) (t : List Char) (h1 : c ≠ '+') (h2 : c ≠ '%') :
    unquotePlus (c :: t) = c :: unquotePlus t := by
  rw [unquotePlus.eq_def]
  show (if c = '+' then _ else if c = '%' then _ else c :: unquotePlus t) = _
  rw [if_neg h1, if_neg h2]

theorem unquotePlus_pct (a b : Char) (t : List Char) (x y : Nat)
    (ha : hexVal a = some x) (hb : hexVal b = some y) :
    unquotePlus ('%' :: a :: b :: t) = Char.ofNat (16 * x + y) :: unquotePlus t := by
  rw [unquotePlus.eq_def]
  show (match hexVal a, hexVal b with
        | some x, some y => Char.ofNat (16 * x + y) :: unquotePlus t
        | _, _ => '%' :: unquotePlus (a :: b :: t)) = _
  rw [ha, hb]

theorem unquote_quoteChar (c : Char) (hc : c.toNat < 128) (t : List Char) :
    unquotePlus (quotePlusChar c ++ t) = c :: unquotePlus t := by
  by_cases hs : alwaysSafe c
  · obtain ⟨h1, h2⟩ := alwaysSafe_ne c hs
    rw [show quotePlusChar c = [c] from by simp [quotePlusChar, hs]]
    exact unquotePlus_plain c t h1 h2
  · by_cases hsp : c = ' '
    · subst hsp
      rw [show quotePlusChar ' ' = ['+'] from by rfl]
      exact unquotePlus_plus t
    · have hdivlt : c.toNat / 16 < 16 := by omega
      have hmodlt : c.toNat % 16 < 16 := by omega
      rw [show quotePlusChar c = ['%', hexUpper (c.toNat / 16), hexUpper (c.toNat % 16)]
        from by simp [quotePlusChar, hs, hsp]]
      rw [List.cons_append, List.cons_append, List.cons_append, List.nil_append]
      rw [unquotePlus_pct _ _ _ _ _ (hexVal_hexUpper _ hdivlt) (hexVal_hexUpper _ hmodlt)]
      have hrm : 16 * (c.toNat / 16) + c.toNat % 16 = c.toNat := by omega
      rw [hrm, Char.ofNat_toNat]

theorem unquote_quote (cs : List Char) (h : ∀ c ∈ cs, c.toNat < 128) :
    unquotePlus (quotePlus cs) = cs := by
  induction cs with
  | nil => exact unquotePlus_nil
  | cons c cs ih =>
    have hc : c.toNat < 128 := h c (List.mem_cons_self c cs)
    have hcs : ∀ x ∈ cs, x.toNat < 128 := fun x hx => h x (List.mem_cons_of_mem c hx)
    show unquotePlus (quotePlusChar c ++ quotePlus cs) = c :: cs
    rw [unquote_quoteChar c hc, ih hcs]

theorem parseStrBody_quote (rest acc : List Char) :
    parseStrBody ('"' :: rest) acc = some (acc.reverse, rest) := by
  rw [parseStrBody.eq_def]
  rfl

theorem parseStrBody_escaped (e : Char) (rest acc : List Char)
    (he : (e = '"' || e = '\\') = true) :
    parseStrBody ('\\' :: e :: rest) acc = parseStrBody rest (e :: acc) := by
  rw [parseStrBody.eq_def]
  show (if ('\\' : Char) = '"' then _
        else if ('\\' : Char) = '\\' then
          if (e = '"' || e = '\\') = true then parseStrBody rest (e :: acc) else none
        else _) = _
  rw [if_neg (by decide : ¬(('\\' : Char) = '"')), if_pos (rfl : ('\\' : Char) = '\\'),
    if_pos he]

theorem parseStrBody_plain (c : Char) (rest acc : List Char)
    (h1 : c ≠ '"') (h2 : c ≠ '\\') :
    parseStrBody (c :: rest) acc = parseStrBody rest (c :: acc) := by
  rw [parseStrBody.eq_def]
  show (if c = '"' then _ else if c = '\\' then _
        else parseStrBody rest (c :: acc)) = _
  rw [if_neg h1, if_neg h2]

theorem parseStrBody_esc (l : List Char) : ∀ (acc rest : List Char),
    parseStrBody ((l.map jsonEsc).flatten ++ '"' :: rest) acc =
      some (acc.reverse ++ l, rest) := by
  induction l with
  | nil =>
    intro acc rest
    show parseStrBody ('"' :: rest) acc = some (acc.reverse ++ [], rest)
    rw [parseStrBody_quote]
    simp
  | cons c l ih =>
    intro acc rest
    by_cases hq : c = '"'
    · subst hq
      show parseStrBody ('\\' :: '"' :: ((l.map jsonEsc).flatten ++ '"' :: rest)) acc
        = some (acc.reverse ++ '"' :: l, rest)
      rw [parseStrBody_escaped _ _ _ (by decide), ih ('"' :: acc) rest]
      simp
    · by_cases hb : c = '\\'
      · subst hb
        show parseStrBody ('\\' :: '\\' :: ((l.map jsonEsc).flatten ++ '"' :: rest)) acc
          = some (acc.reverse ++ '\\' :: l, rest)
        rw [parseStrBody_escaped _ _ _ (by decide), ih ('\\' :: acc) rest]
        simp
      · have hesc : jsonEsc c = [c] := by simp [jsonEsc, hq, hb]
        simp only [List.map_cons, List.flatten_cons, hesc, List.singleton_append,
          List.cons_append, List.nil_append]
        rw [parseStrBody_plain c _ _ hq hb, ih (c :: acc) rest]
        simp

theorem dropLit_pre (p : List Char) : ∀ t, dropLit p (p ++ t) = some t := by
  induction p with
  | nil => intro t; rfl
  | cons c p ih => intro t; simp [dropLit, ih]

theorem jsonLoads_dumps (k : String) : jsonLoadsLek (jsonDumpsLek k) = some k := by
  have h1 : (jsonDumpsLek k).data
      = "\x7b\"file_id\": \"".data ++ ((k.data.map jsonEsc).flatten ++ '"' :: ['\x7d']) := by
    show "\x7b\"file_id\": \"".data ++ (k.data.map jsonEsc).flatten ++ "\"\x7d".data
      = "\x7b\"file_id\": \"".data ++ ((k.data.map jsonEsc).flatten ++ '"' :: ['\x7d'])
    rw [List.append_assoc]
  unfold jsonLoadsLek
  rw [h1, dropLit_pre]
  show (match parseStrBody ((k.data.map jsonEsc).flatten ++ '"' :: ['\x7d']) [] with
        | none => none
        | some (v, rest2) => if rest2 = ['\x7d'] then some (String.mk v) else none) = some k
  rw [parseStrBody_esc]
  rfl

theorem jsonDumps_ascii (k : String) (hk : ∀ c ∈ k.data, c.toNat < 128) :
    ∀ c ∈ (jsonDumpsLek k).data, c.toNat < 128 := by
  intro c hc
  have hpre : ∀ x ∈ "\x7b\"file_id\": \"".data, Char.toNat x < 128 := by decide
  have hsuf : ∀ x ∈ "\"\x7d".data, Char.toNat x < 128 := by decide
  have hc2 : c ∈ "\x7b\"file_id\": \"".data ++ (k.data.map jsonEsc).flatten
      ++ "\"\x7d".data := hc
  rcases List.mem_append.mp hc2 with h1 | h2
  · rcases List.mem_append.mp h1 with hp | he
    · exact hpre c hp
    · obtain ⟨l, hl, hcl⟩ := List.mem_flatten.mp he
      obtain ⟨x, hx, hlx⟩ := List.mem_map.mp hl
      subst hlx
      by_cases hq : x = '"'
      · subst hq
        simp [jsonEsc] at hcl
        rcases hcl with rfl | rfl <;> decide
      · by_cases hb : x = '\\'
        · subst hb
          simp [jsonEsc] at hcl
          subst hcl
          decide
        · simp [jsonEsc, hq, hb] at hcl
          subst hcl
          exact hk _ hx
  · exact hsuf c h2

/-- The characters the service actually stores in `file_id` (uuid hex
and dashes) are printable ASCII; this is the domain on which the
modelled `json.dumps` agrees with the stdlib one. -/
def printableAscii (s : String) : Prop := ∀ c ∈ s.data, 32 ≤ c.toNat ∧ c.toNat < 127

instance (s : String) : Decidable (printableAscii s) := by
  unfold printableAscii; infer_instance

/-- C5: for every store resume key, decoding the next-cursor token
that the listing handler emits for it yields exactly that key: the
token round-trips through `quote_plus(json.dumps(...))` and
`json.loads(unquote_plus(...))` without loss.  The hypothesis
restricts keys to printable ASCII, the alphabet of the uuid `file_id`
values this service generates (and the domain on which the modelled
`json.dumps` agrees with the stdlib). -/
theorem C5_cursor_roundtrip (k : String) (hk : printableAscii k) :
    decodeCursor (encodeCursor k) = some k := by
  have hk128 : ∀ c ∈ k.data, c.toNat < 128 := fun c hc => by
    have := hk c hc; omega
  have hd := jsonDumps_ascii k hk128
  show jsonLoadsLek
    (String.mk (unquotePlus (String.mk (quotePlus (jsonDumpsLek k).data)).data)) = some k
  rw [show (String.mk (quotePlus (jsonDumpsLek k).data)).data
      = quotePlus (jsonDumpsLek k).data from rfl]
  rw [unquote_quote _ hd]
  rw [show String.mk (jsonDumpsLek k).data = jsonDumpsLek k from rfl]
  exact jsonLoads_dumps k

/-- Witness for C5 at a concrete uuid-shaped resume key. -/
theorem C5_cursor_roundtrip_witness :
    printableAscii "0f8c2d5e-aa11-4bde-9c3f-2b7d1e64a980" ∧
    decodeCursor (encodeCursor "0f8c2d5e-aa11-4bde-9c3f-2b7d1e64a980")
      = some "0f8c2d5e-aa11-4bde-9c3f-2b7d1e64a980" :=
  ⟨by decide, C5_cursor_roundtrip _ (by decide)⟩

/-! ## Correctness of decimal printing against the limit codec (C8) -/

theorem natToChars_digits (n : Nat) :
    ∀ c ∈ natToChars n, 48 ≤ c.toNat ∧ c.toNat ≤ 57 := by
  induction n using Nat.strong_induction_on with
  | _ n ih =>
    rw [natToChars.eq_def]
    by_cases h : n < 10
    · rw [dif_pos h]
      intro c hc
      rcases List.mem_singleton.mp hc with rfl
      rw [toNat_ofNat_small _ (by omega)]
      omega
    · rw [dif_neg h]
      intro c hc
      rcases List.mem_append.mp hc with h1 | h2
      · exact ih (n / 10) (Nat.div_lt_self (by omega) (by omega)) c h1
      · rcases List.mem_singleton.mp h2 with rfl
        have : n % 10 < 10 := Nat.mod_lt _ (by omega)
        rw [toNat_ofNat_small _ (by omega)]
        omega

theorem natToChars_ne_nil (n : Nat) : natToChars n ≠ [] := by
  rw [natToChars.eq_def]
  by_cases h : n < 10
  · rw [dif_pos h]; simp
  · rw [dif_neg h]; simp

theorem foldl_natToChars (n : Nat) : ∀ a : Nat,
    (natToChars n).foldl (fun a c => 10 * a + (c.toNat - 48)) a
      = a * 10 ^ (natToChars n).length + n := by
  induction n using Nat.strong_induction_on with
  | _ n ih =>
    intro a
    rw [natToChars.eq_def]
    by_cases h : n < 10
    · rw [dif_pos h]
      simp only [List.foldl_cons, List.foldl_nil, List.length_singleton]
      rw [toNat_ofNat_small _ (by omega)]
      omega
    · rw [dif_neg h]
      rw [List.foldl_append, List.length_append]
      rw [ih (n / 10) (Nat.div_lt_self (by omega) (by omega)) a]
      simp only [List.foldl_cons, List.foldl_nil, List.length_singleton]
      rw [toNat_ofNat_small _ (by omega)]
      have hdm : 10 * (n / 10) + n % 10 = n := by omega
      have hp : (10 : Nat) ^ ((natToChars (n / 10)).length + 1)
          = 10 ^ (natToChars (n / 10)).length * 10 := by
        rw [pow_succ]
      rw [hp]
      have : 10 * (a * 10 ^ (natToChars (n / 10)).length + n / 10) + (48 + n % 10 - 48)
          = a * (10 ^ (natToChars (n / 10)).length * 10) + (10 * (n / 10) + n % 10) := by
        ring_nf
        omega
      rw [this, hdm]

theorem digitsVal_natToChars (n : Nat) : digitsVal (natToChars n) = some n := by
  unfold digitsVal
  rw [if_neg (natToChars_ne_nil n)]
  rw [if_pos (by
    rw [List.all_eq_true]
    intro c hc
    have := natToChars_digits n c hc
    simp only [Bool.and_eq_true, decide_eq_true_eq]
    omega)]
  rw [foldl_natToChars n 0]
  simp

theorem parseInt_natToString (n : Nat) : parseInt (natToString n) = some (n : Int) := by
  have hne := natToChars_ne_nil n
  have hdig := natToChars_digits n
  rcases h : natToChars n with _ | ⟨c, t⟩
  · exact absurd h hne
  · have hc : 48 ≤ c.toNat ∧ c.toNat ≤ 57 :=
      hdig c (by rw [h]; exact List.mem_cons_self c t)
    have h1 : c ≠ '-' := fun he => by subst he; revert hc; decide
    have h2 : c ≠ '+' := fun he => by subst he; revert hc; decide
    show parseInt (String.mk (natToChars n)) = some (n : Int)
    rw [h]
    show (if c = '-' then (digitsVal t).map (fun m => -(m : Int))
          else if c = '+' then (digitsVal t).map (fun m => (m : Int))
          else (digitsVal (c :: t)).map (fun m => (m : Int))) = some (n : Int)
    rw [if_neg h1, if_neg h2, ← h, digitsVal_natToChars]
    rfl

/-- A listing event supplying the decimal rendering of `n` as `limit`. -/
def mkLimitEvent (n : Nat) : QueryEvent := ⟨some [("limit", natToString n)]⟩

theorem requestedLimit_mkLimitEvent (n : Nat) :
    requestedLimit (mkLimitEvent n) = some (n : Int) := by
  unfold requestedLimit mkLimitEvent
  rw [show lookupParam ((some [("limit", natToString n)] : Option _).getD []) "limit"
      = some (natToString n) from rfl]
  exact parseInt_natToString n

/-- C8 counterexample: no fixed cap bounds the page size the handler
asks the store for — for every candidate cap some supplied `limit`
exceeds it, because the parsed value is passed through unchanged. -/
theorem C8_counterexample : ¬ ∃ cap : Int, ∀ n : Nat, ∀ v : Int,
    requestedLimit (mkLimitEvent n) = some v → v ≤ cap := by
  rintro ⟨cap, hcap⟩
  have h := hcap (cap.toNat + 1) ((cap.toNat + 1 : Nat) : Int)
    (requestedLimit_mkLimitEvent _)
  omega

/-- C8 (amended): with no `limit` parameter the handler asks the store
for the default page size 10; a supplied `limit` that parses is passed
to the store unchanged, with no upper cap applied. -/
theorem C8_limit_default_and_passthrough (e : QueryEvent) (str : String) (v : Int) :
    (lookupParam (e.queryStringParameters.getD []) "limit" = none →
      requestedLimit e = some 10) ∧
    (lookupParam (e.queryStringParameters.getD []) "limit" = some str →
      parseInt str = some v → requestedLimit e = some v) := by
  constructor
  · intro h
    unfold requestedLimit
    rw [h]
  · intro h hp
    unfold requestedLimit
    rw [h]
    exact hp

/-- Witness for C8: a million-record limit flows through to the store;
an absent limit becomes 10. -/
theorem C8_limit_default_and_passthrough_witness :
    requestedLimit ⟨some [("limit", "1000000")]⟩ = some 1000000 ∧
    requestedLimit ⟨none⟩ = some 10 := by
  refine ⟨(C8_limit_default_and_passthrough ⟨some [("limit", "1000000")]⟩
      "1000000" 1000000).2 ?_ ?_,
    (C8_limit_default_and_passthrough ⟨none⟩ "" 0).1 ?_⟩ <;> rfl

/-! ## The digest space is finite

SHA-256 digests are eight 32-bit words, so the digest space has
exactly 2 ^ 256 elements while payloads are unbounded; by pigeonhole
two distinct payloads share a digest.  This is what separates
"deduplicates exactly when the bytes agree" (false in principle) from
"deduplicates exactly when the digests agree" (what the code does). -/

def hash8Bounded (s : Hash8) : Prop :=
  s.a < 4294967296 ∧ s.b < 4294967296 ∧ s.c < 4294967296 ∧ s.d < 4294967296 ∧
  s.e < 4294967296 ∧ s.f < 4294967296 ∧ s.g < 4294967296 ∧ s.h < 4294967296

theorem mask32_lt (x : Nat) : mask32 x < 4294967296 := Nat.mod_lt _ (by norm_num)

theorem hash8Add_bounded (s t : Hash8) : hash8Bounded (hash8Add s t) :=
  ⟨mask32_lt _, mask32_lt _, mask32_lt _, mask32_lt _,
   mask32_lt _, mask32_lt _, mask32_lt _, mask32_lt _⟩

theorem compressChunk_bounded (s : Hash8) (c : List Nat) :
    hash8Bounded (compressChunk s c) :=
  hash8Add_bounded s _

theorem iv_bounded : hash8Bounded iv := by
  refine ⟨?_, ?_, ?_, ?_, ?_, ?_, ?_, ?_⟩ <;> norm_num [iv]

theorem foldl_compress_bounded (l : List (List Nat)) :
    ∀ s : Hash8, hash8Bounded s → hash8Bounded (l.foldl compressChunk s) := by
  induction l with
  | nil => intro s hs; exact hs
  | cons c l ih =>
    intro s _
    rw [List.foldl_cons]
    exact ih (compressChunk s c) (compressChunk_bounded s c)

theorem sha256Words_bounded (m : List Nat) : hash8Bounded (sha256Words m) :=
  foldl_compress_bounded _ iv iv_bounded

/-- Pack the eight digest words into one number below 2 ^ 256. -/
def hash8ToNat (s : Hash8) : Nat :=
  ((((((s.a * 4294967296 + s.b) * 4294967296 + s.c) * 4294967296 + s.d) * 4294967296
    + s.e) * 4294967296 + s.f) * 4294967296 + s.g) * 4294967296 + s.h

theorem hash8ToNat_lt (s : Hash8) (hs : hash8Bounded s) : hash8ToNat s < 2 ^ 256 := by
  obtain ⟨ha, hb, hc, hd, he, hf, hg, hh⟩ := hs
  unfold hash8ToNat
  have h2 : (2 : Nat) ^ 256 =
    115792089237316195423570985008687907853269984665640564039457584007913129639936 := by
    norm_num
  rw [h2]
  omega

theorem hash8ToNat_inj (s t : Hash8) (hs : hash8Bounded s) (ht : hash8Bounded t)
    (heq : hash8ToNat s = hash8ToNat t) : s = t := by
  cases s with
  | mk a b c d e f g h =>
    cases t with
    | mk a' b' c' d' e' f' g' h' =>
      simp only [hash8ToNat] at heq
      simp only [hash8Bounded] at hs ht
      obtain ⟨rfl, rfl, rfl, rfl, rfl, rfl, rfl, rfl⟩ :
          a = a' ∧ b = b' ∧ c = c' ∧ d = d' ∧ e = e' ∧ f = f' ∧ g = g' ∧ h = h' := by
        omega
      rfl

theorem sha256_collision : ∃ m n : Nat, m ≠ n ∧
    sha256Hex (List.replicate m 97) = sha256Hex (List.replicate n 97) := by
  obtain ⟨m, n, hne, heq⟩ := Finite.exists_ne_map_eq_of_infinite
    (fun m : Nat => (⟨hash8ToNat (sha256Words (List.replicate m 97)),
      hash8ToNat_lt _ (sha256Words_bounded _)⟩ : Fin (2 ^ 256)))
  refine ⟨m, n, hne, ?_⟩
  have hv : hash8ToNat (sha256Words (List.replicate m 97))
      = hash8ToNat (sha256Words (List.replicate n 97)) := congrArg Fin.val heq
  have hw := hash8ToNat_inj _ _ (sha256Words_bounded _) (sha256Words_bounded _) hv
  unfold sha256Hex
  rw [hw]

/-! ## Branch equations of the upload handler -/

theorem uploadRun_noBody (s : SysState) (hd : Option (Option (List (String × String))))
    (flag : Bool) :
    uploadRun s ⟨none, hd, flag⟩ = (.clientError "No file content provided", s, []) := rfl

theorem uploadRun_noHeaders (s : SysState) (body : String) (flag : Bool) :
    uploadRun s ⟨some body, none, flag⟩
      = (.clientError "Missing or invalid headers", s, []) := rfl

theorem uploadRun_badHeaders (s : SysState) (body : String) (flag : Bool) :
    uploadRun s ⟨some body, some none, flag⟩
      = (.clientError "Missing or invalid headers", s, []) := rfl

theorem uploadRun_badDecode (s : SysState) (body : String)
    (hs : List (String × String)) (flag : Bool)
    (hdec : decodeBody flag body = none) :
    uploadRun s ⟨some body, some (some hs), flag⟩
      = (.clientError "Failed to decode file content", s, []) := by
  show (match decodeBody flag body with
        | none => (UploadOutcome.clientError "Failed to decode file content", s, [])
        | some bytes =>
          match s.meta.find? (fun r : FileRecord => r.hash == sha256Hex bytes) with
          | some existing => uploadDup s bytes existing
          | none => uploadNew s hs bytes) = _
  rw [hdec]

theorem uploadRun_dup (s : SysState) (body : String)
    (hs : List (String × String)) (flag : Bool) (bytes : List Nat) (r : FileRecord)
    (hdec : decodeBody flag body = some bytes)
    (hfind : s.meta.find? (fun x => x.hash == sha256Hex bytes) = some r) :
    uploadRun s ⟨some body, some (some hs), flag⟩ = uploadDup s bytes r := by
  show (match decodeBody flag body with
        | none => (UploadOutcome.clientError "Failed to decode file content", s, [])
        | some bytes =>
          match s.meta.find? (fun r : FileRecord => r.hash == sha256Hex bytes) with
          | some existing => uploadDup s bytes existing
          | none => uploadNew s hs bytes) = _
  rw [hdec]
  show (match s.meta.find? (fun x : FileRecord => x.hash == sha256Hex bytes) with
        | some existing => uploadDup s bytes existing
        | none => uploadNew s hs bytes) = _
  rw [hfind]

theorem uploadRun_new (s : SysState) (body : String)
    (hs : List (String × String)) (flag : Bool) (bytes : List Nat)
    (hdec : decodeBody flag body = some bytes)
    (hfind : s.meta.find? (fun x => x.hash == sha256Hex bytes) = none) :
    uploadRun s ⟨some body, some (some hs), flag⟩ = uploadNew s hs bytes := by
  show (match decodeBody flag body with
        | none => (UploadOutcome.clientError "Failed to decode file content", s, [])
        | some bytes =>
          match s.meta.find? (fun r : FileRecord => r.hash == sha256Hex bytes) with
          | some existing => uploadDup s bytes existing
          | none => uploadNew s hs bytes) = _
  rw [hdec]
  show (match s.meta.find? (fun x : FileRecord => x.hash == sha256Hex bytes) with
        | some existing => uploadDup s bytes existing
        | none => uploadNew s hs bytes) = _
  rw [hfind]

/-- The new-file branch returns `created`. -/
theorem uploadNew_fst (s : SysState) (hs : List (String × String)) (bytes : List Nat) :
    ∃ r, (uploadNew s hs bytes).1 = .created r := ⟨_, rfl⟩

/-! ## Fixtures: concrete states and events for the witnesses -/

/-- A fresh deployment: empty tables, zero counters. -/
def emptyState : SysState :=
  ⟨[], [], ⟨0, 0⟩, 0, "2026-02-03T04:05:06", "dedup-bucket"⟩

/-- The spec scenario upload: payload `b"hello"`, name `a.txt`. -/
def evHelloA : UploadEvent :=
  ⟨some "hello", some (some [("filename", "a.txt")]), false⟩

/-- Identical bytes re-uploaded under the name `b.txt`. -/
def evHelloB : UploadEvent :=
  ⟨some "hello", some (some [("filename", "b.txt")]), false⟩

/-- Identical bytes with a different name and content type. -/
def evHelloC : UploadEvent :=
  ⟨some "hello", some (some [("filename", "c.txt"), ("content-type", "text/plain")]), false⟩

/-- A decodable payload sent without a `headers` member. -/
def evNoHeaders : UploadEvent := ⟨some "hello", none, false⟩

/-- The record the first `hello` upload persisted. -/
def recA : FileRecord :=
  { file_id := "uuid-orig", name := "a.txt", size := 5, type := "text/plain",
    hash := sha256Hex (utf8Bytes "hello"), created_at := "2026-01-01T00:00:00",
    s3_key := "files/hello/a.txt", download_url := "https://d/files/hello/a.txt" }

/-- A state already holding `recA`. -/
def stateA : SysState :=
  ⟨[recA], [("files/hello/a.txt", utf8Bytes "hello")], ⟨0, 0⟩, 1,
   "2026-02-03T04:05:06", "dedup-bucket"⟩

def isCreated : UploadOutcome → Bool
  | .created _ => true
  | _ => false

def isClientError : UploadOutcome → Bool
  | .clientError _ => true
  | _ => false

/-- The payload-side failure condition of claim C3: the body is absent
or cannot be decoded per the declared transfer encoding. -/
def payloadBad (e : UploadEvent) : Prop := e.body = none ∨ decodePayload e = none

theorem decodePayload_eq (body : String) (hd : Option (Option (List (String × String))))
    (flag : Bool) : decodePayload ⟨some body, hd, flag⟩ = decodeBody flag body := rfl

/-- Claim C1's ordering property over an upload trace: every blob
write is preceded by an earlier metadata insert. -/
def metaInsertPrecedesBlobWrite (tr : List Action) : Prop :=
  ∀ (j : Nat) (key : String) (bytes : List Nat),
    tr[j]? = some (.blobPut key bytes) →
    ∃ (i : Nat) (r : FileRecord), i < j ∧ tr[i]? = some (.metaPut r)

/-- C1 counterexample: on the very first upload (payload `b"hello"`,
name `a.txt`, empty store) the trace is lookup, blob write, metadata
insert — the blob write at position 1 has no metadata insert before
it, so the claimed order is violated. -/
theorem C1_counterexample :
    ¬ metaInsertPrecedesBlobWrite (uploadRun emptyState evHelloA).2.2 := by
  intro hcl
  obtain ⟨i, r, hi, hmeta⟩ := hcl 1
    ("files/" ++ sha256Hex (utf8Bytes "hello") ++ "/" ++ "a.txt") (utf8Bytes "hello") rfl
  have hi0 : i = 0 := by omega
  subst hi0
  rw [show (uploadRun emptyState evHelloA).2.2[0]?
      = some (Action.metaGetByHash (sha256Hex (utf8Bytes "hello"))) from rfl] at hmeta
  simp at hmeta

/-- C1 (amended): on every upload that takes the new-file path the
engine performs the duplicate lookup, then writes the blob, then
inserts the metadata record unconditionally — the blob write precedes
the metadata insert, and no conditional insert exists. -/
theorem C1_blob_write_precedes_meta_insert :
    ∀ (s : SysState) (e : UploadEvent), isCreated (uploadRun s e).1 = true →
      ∃ h key bytes r, (uploadRun s e).2.2
        = [.metaGetByHash h, .blobPut key bytes, .metaPut r] := by
  intro s e hcr
  rcases e with ⟨b, hd, flag⟩
  cases b with
  | none => rw [uploadRun_noBody] at hcr; simp [isCreated] at hcr
  | some body =>
    rcases hd with _ | hd2
    · rw [uploadRun_noHeaders] at hcr; simp [isCreated] at hcr
    · rcases hd2 with _ | hs
      · rw [uploadRun_badHeaders] at hcr; simp [isCreated] at hcr
      · cases hdec : decodeBody flag body with
        | none => rw [uploadRun_badDecode s body hs flag hdec] at hcr
                  simp [isCreated] at hcr
        | some bytes =>
          cases hfind : List.find? (fun x : FileRecord => x.hash == sha256Hex bytes)
              s.meta with
          | some r =>
            rw [uploadRun_dup s body hs flag bytes r hdec hfind] at hcr
            simp [uploadDup, isCreated] at hcr
          | none =>
            rw [uploadRun_new s body hs flag bytes hdec hfind]
            exact ⟨sha256Hex bytes, _, bytes, _, rfl⟩

/-- Witness for C1 at the `b"hello"`/`a.txt` upload on the empty store. -/
theorem C1_blob_write_precedes_meta_insert_witness :
    isCreated (uploadRun emptyState evHelloA).1 = true ∧
    ∃ h key bytes r, (uploadRun emptyState evHelloA).2.2
      = [.metaGetByHash h, .blobPut key bytes, .metaPut r] :=
  ⟨rfl, C1_blob_write_precedes_meta_insert emptyState evHelloA rfl⟩

/-- C2: whenever the upload handler answers `Duplicate`, the returned
record is exactly the stored record whose `hash` matches the digest
(so its `name` is the original uploader's), the metadata table and the
blob store are untouched, no blob or metadata write appears in the
trace, and only the two counters move: by exactly 1 and the payload
size. -/
theorem C2_duplicate_frame :
    ∀ (s : SysState) (e : UploadEvent) (r : FileRecord),
      (uploadRun s e).1 = .duplicate r →
      ∃ bytes, decodePayload e = some bytes
        ∧ s.meta.find? (fun x => x.hash == sha256Hex bytes) = some r
        ∧ (uploadRun s e).2.1.meta = s.meta
        ∧ (uploadRun s e).2.1.blobs = s.blobs
        ∧ (uploadRun s e).2.1.counters.duplicates_avoided
            = s.counters.duplicates_avoided + 1
        ∧ (uploadRun s e).2.1.counters.total_s3_size_saved
            = s.counters.total_s3_size_saved + bytes.length
        ∧ (uploadRun s e).2.2
            = [.metaGetByHash (sha256Hex bytes), .counterIncrement 1 bytes.length] := by
  intro s e hr hdup
  rcases e with ⟨b, hd, flag⟩
  cases b with
  | none => rw [uploadRun_noBody] at hdup; simp at hdup
  | some body =>
    rcases hd with _ | hd2
    · rw [uploadRun_noHeaders] at hdup; simp at hdup
    · rcases hd2 with _ | hs
      · rw [uploadRun_badHeaders] at hdup; simp at hdup
      · cases hdec : decodeBody flag body with
        | none => rw [uploadRun_badDecode s body hs flag hdec] at hdup; simp at hdup
        | some bytes =>
          cases hfind : List.find? (fun x : FileRecord => x.hash == sha256Hex bytes)
              s.meta with
          | none =>
            rw [uploadRun_new s body hs flag bytes hdec hfind] at hdup
            simp [uploadNew] at hdup
          | some r0 =>
            rw [uploadRun_dup s body hs flag bytes r0 hdec hfind] at hdup ⊢
            have hrr : r0 = hr := by simpa [uploadDup] using hdup
            subst hrr
            exact ⟨bytes, hdec, hfind, rfl, rfl, rfl, rfl, rfl⟩

/-- Witness for C2: the spec scenario — `b"hello"` re-uploaded as
`b.txt` against a store holding `a.txt` returns the original record
(name `a.txt`), leaves both stores unchanged, and moves the counters
to 1 and 5. -/
theorem C2_duplicate_frame_witness :
    (uploadRun stateA evHelloB).1 = .duplicate recA ∧
    (uploadRun stateA evHelloB).2.1.meta = stateA.meta ∧
    (uploadRun stateA evHelloB).2.1.blobs = stateA.blobs ∧
    (uploadRun stateA evHelloB).2.1.counters.duplicates_avoided = 1 ∧
    (uploadRun stateA evHelloB).2.1.counters.total_s3_size_saved = 5 ∧
    recA.name = "a.txt" := by
  have hdup : (uploadRun stateA evHelloB).1 = .duplicate recA := rfl
  obtain ⟨bytes, hdec, hfind, hmeta, hblobs, hd, ht, hacts⟩ :=
    C2_duplicate_frame stateA evHelloB recA hdup
  have hb : bytes = utf8Bytes "hello" := by
    have h0 : decodePayload evHelloB = some (utf8Bytes "hello") := rfl
    rw [h0] at hdec
    exact (Option.some_inj.mp hdec).symm
  subst hb
  refine ⟨hdup, hmeta, hblobs, ?_, ?_, rfl⟩
  · rw [hd]
    rfl
  · rw [ht]
    rfl

/-- C3 counterexample: an event with a present, decodable body but no
`headers` member is rejected with a client error, so "client error iff
payload absent or undecodable" fails in the only-if direction. -/
theorem C3_counterexample :
    ¬ (isClientError (uploadRun emptyState evNoHeaders).1 = true ↔
        payloadBad evNoHeaders) := by
  intro hiff
  rcases hiff.mp rfl with h | h
  · exact absurd h (by simp [evNoHeaders])
  · rw [show decodePayload evNoHeaders = some (utf8Bytes "hello") from rfl] at h
    cases h

/-- C3 (amended): the upload handler returns a client error exactly
when the body is absent, the `headers` member is absent or not a
dict, or the payload cannot be decoded per the declared transfer
encoding; on every such error the state is unchanged and no store
call is made. -/
theorem C3_client_error_iff :
    ∀ (s : SysState) (e : UploadEvent),
      (isClientError (uploadRun s e).1 = true ↔
        (e.body = none ∨ e.headers = none ∨ e.headers = some none ∨
          decodePayload e = none))
      ∧ (isClientError (uploadRun s e).1 = true →
          (uploadRun s e).2.1 = s ∧ (uploadRun s e).2.2 = []) := by
  intro s e
  rcases e with ⟨b, hd, flag⟩
  cases b with
  | none =>
    rw [uploadRun_noBody]
    exact ⟨⟨fun _ => Or.inl rfl, fun _ => rfl⟩, fun _ => ⟨rfl, rfl⟩⟩
  | some body =>
    rcases hd with _ | hd2
    · rw [uploadRun_noHeaders]
      exact ⟨⟨fun _ => Or.inr (Or.inl rfl), fun _ => rfl⟩, fun _ => ⟨rfl, rfl⟩⟩
    · rcases hd2 with _ | hs
      · rw [uploadRun_badHeaders]
        exact ⟨⟨fun _ => Or.inr (Or.inr (Or.inl rfl)), fun _ => rfl⟩, fun _ => ⟨rfl, rfl⟩⟩
      · cases hdec : decodeBody flag body with
        | none =>
          rw [uploadRun_badDecode s body hs flag hdec]
          refine ⟨⟨fun _ => Or.inr (Or.inr (Or.inr ?_)), fun _ => rfl⟩, fun _ => ⟨rfl, rfl⟩⟩
          rw [decodePayload_eq, hdec]
        | some bytes =>
          have hno : ¬ ((some body : Option String) = none ∨
              (some (some hs) : Option (Option (List (String × String)))) = none ∨
              (some (some hs) : Option (Option (List (String × String)))) = some none ∨
              decodePayload ⟨some body, some (some hs), flag⟩ = none) := by
            rintro (h | h | h | h)
            · cases h
            · cases h
            · cases h
            · rw [decodePayload_eq, hdec] at h; cases h
          cases hfind : List.find? (fun x : FileRecord => x.hash == sha256Hex bytes)
              s.meta with
          | some r0 =>
            rw [uploadRun_dup s body hs flag bytes r0 hdec hfind]
            refine ⟨⟨fun hce => absurd hce ?_, fun hor => absurd hor hno⟩,
              fun hce => absurd hce ?_⟩ <;> simp [uploadDup, isClientError]
          | none =>
            rw [uploadRun_new s body hs flag bytes hdec hfind]
            refine ⟨⟨fun hce => absurd hce ?_, fun hor => absurd hor hno⟩,
              fun hce => absurd hce ?_⟩ <;> simp [uploadNew, isClientError]

/-- Witness for C3 at a bodyless event: a client error with the state
untouched and an empty store-call trace. -/
theorem C3_client_error_iff_witness :
    isClientError (uploadRun emptyState ⟨none, some (some []), false⟩).1 = true ∧
    (uploadRun emptyState ⟨none, some (some []), false⟩).2.1 = emptyState ∧
    (uploadRun emptyState ⟨none, some (some []), false⟩).2.2 = [] := by
  have h := C3_client_error_iff emptyState ⟨none, some (some []), false⟩
  have hce := (h.1).mpr (Or.inl rfl)
  exact ⟨hce, (h.2 hce).1, (h.2 hce).2⟩

/-- The counter effect of one upload: untouched, or — exactly on the
duplicate outcome — bumped by 1 and the payload size. -/
theorem upload_counters (s : SysState) (e : UploadEvent) :
    ((uploadRun s e).2.1.counters = s.counters ∨
      ∃ r bytes, (uploadRun s e).1 = .duplicate r ∧ decodePayload e = some bytes ∧
        (uploadRun s e).2.1.counters.duplicates_avoided
          = s.counters.duplicates_avoided + 1 ∧
        (uploadRun s e).2.1.counters.total_s3_size_saved
          = s.counters.total_s3_size_saved + bytes.length) ∧
    s.counters.duplicates_avoided ≤ (uploadRun s e).2.1.counters.duplicates_avoided ∧
    s.counters.total_s3_size_saved ≤ (uploadRun s e).2.1.counters.total_s3_size_saved := by
  rcases e with ⟨b, hd, flag⟩
  cases b with
  | none => rw [uploadRun_noBody]; exact ⟨Or.inl rfl, le_refl _, le_refl _⟩
  | some body =>
    rcases hd with _ | hd2
    · rw [uploadRun_noHeaders]; exact ⟨Or.inl rfl, le_refl _, le_refl _⟩
    · rcases hd2 with _ | hs
      · rw [uploadRun_badHeaders]; exact ⟨Or.inl rfl, le_refl _, le_refl _⟩
      · cases hdec : decodeBody flag body with
        | none =>
          rw [uploadRun_badDecode s body hs flag hdec]
          exact ⟨Or.inl rfl, le_refl _, le_refl _⟩
        | some bytes =>
          cases hfind : List.find? (fun x : FileRecord => x.hash == sha256Hex bytes)
              s.meta with
          | none =>
            rw [uploadRun_new s body hs flag bytes hdec hfind]
            exact ⟨Or.inl rfl, le_refl _, le_refl _⟩
          | some r0 =>
            rw [uploadRun_dup s body hs flag bytes r0 hdec hfind]
            refine ⟨Or.inr ⟨r0, bytes, rfl, ?_, rfl, rfl⟩,
              Nat.le_add_right _ _, Nat.le_add_right _ _⟩
            rw [decodePayload_eq, hdec]

/-- C4: the persisted counters are monotonically non-decreasing across
every operation of the service: an upload leaves them unchanged or —
on the duplicate path — adds exactly 1 and the payload's byte size,
and the four read handlers leave the entire state unchanged; no
operation ever writes a smaller value. -/
theorem C4_counters_monotone :
    ∀ (s : SysState) (e : UploadEvent) (pe : PathEvent) (qe : QueryEvent),
      ((uploadRun s e).2.1.counters = s.counters ∨
        ∃ r bytes, (uploadRun s e).1 = .duplicate r ∧ decodePayload e = some bytes ∧
          (uploadRun s e).2.1.counters.duplicates_avoided
            = s.counters.duplicates_avoided + 1 ∧
          (uploadRun s e).2.1.counters.total_s3_size_saved
            = s.counters.total_s3_size_saved + bytes.length)
      ∧ s.counters.duplicates_avoided ≤ (uploadRun s e).2.1.counters.duplicates_avoided
      ∧ s.counters.total_s3_size_saved ≤ (uploadRun s e).2.1.counters.total_s3_size_saved
      ∧ (getMetadataRun s pe).2 = s ∧ (getFileRun s pe).2 = s
      ∧ (getHashesRun s qe).2 = s ∧ (getStatsRun s).2 = s := by
  intro s e pe qe
  obtain ⟨h1, h2, h3⟩ := upload_counters s e
  exact ⟨h1, h2, h3, rfl, rfl, rfl, rfl⟩

/-- C6: the content digest the upload handler computes is a function
of the decoded payload bytes alone — any two events that decode to the
same bytes get the same digest, and the declared name and content type
(the headers) do not enter the computation at all. -/
theorem C6_hash_depends_only_on_bytes :
    (∀ (e1 e2 : UploadEvent) (bytes : List Nat),
      decodePayload e1 = some bytes → decodePayload e2 = some bytes →
        contentHashOf e1 = some (sha256Hex bytes) ∧ contentHashOf e1 = contentHashOf e2)
    ∧ ∀ (b : Option String) (flag : Bool)
        (hd1 hd2 : Option (Option (List (String × String)))),
        contentHashOf ⟨b, hd1, flag⟩ = contentHashOf ⟨b, hd2, flag⟩ := by
  constructor
  · intro e1 e2 bytes h1 h2
    unfold contentHashOf
    rw [h1, h2]
    exact ⟨rfl, rfl⟩
  · intro b flag hd1 hd2
    cases b <;> rfl

/-- Witness for C6: `b"hello"` uploaded under two different names and
content types hashes identically. -/
theorem C6_hash_depends_only_on_bytes_witness :
    contentHashOf evHelloA = some (sha256Hex (utf8Bytes "hello")) ∧
    contentHashOf evHelloA = contentHashOf evHelloC :=
  ⟨(C6_hash_depends_only_on_bytes.1 evHelloA evHelloC (utf8Bytes "hello") rfl rfl).1,
   (C6_hash_depends_only_on_bytes.1 evHelloA evHelloC (utf8Bytes "hello") rfl rfl).2⟩

/-- A retrieval event for a given id, as API Gateway delivers it. -/
def pathEvent (fid : String) : PathEvent := ⟨some (some [("id", fid)])⟩

/-- C7: for a (non-empty) file_id with no stored record, both the
metadata handler and the download handler answer the distinct
not-found outcome — never a server error — and for a stored record
they succeed, the download handler requesting a presigned URL whose
expiry is the fixed 3600-second TTL. -/
theorem C7_lookup_by_id :
    ∀ (s : SysState) (fid : String), fid ≠ "" →
      (s.meta.find? (fun r => r.file_id == fid) = none →
        getMetadataResult s (pathEvent fid) = .notFound ∧
        getFileResult s (pathEvent fid) = .ok .notFound ∧
        GetMetaOutcome.notFound ≠ GetMetaOutcome.serverError)
      ∧ ∀ r, s.meta.find? (fun r => r.file_id == fid) = some r →
          getMetadataResult s (pathEvent fid) = .found r ∧
          getFileResult s (pathEvent fid)
            = .ok (.success ⟨s.bucket, r.s3_key, 3600⟩ "file" r.size) := by
  intro s fid hne
  constructor
  · intro hfind
    refine ⟨?_, ?_, by simp⟩
    · show (match s.meta.find? (fun r : FileRecord => r.file_id == fid) with
            | some r => GetMetaOutcome.found r
            | none => GetMetaOutcome.notFound) = _
      rw [hfind]
    · show (if fid = "" then Except.ok GetFileOutcome.badRequest
            else match s.meta.find? (fun r : FileRecord => r.file_id == fid) with
            | none => Except.ok GetFileOutcome.notFound
            | some r =>
              Except.ok (GetFileOutcome.success ⟨s.bucket, r.s3_key, 3600⟩ "file" r.size))
          = _
      rw [if_neg hne, hfind]
  · intro r hfind
    constructor
    · show (match s.meta.find? (fun r : FileRecord => r.file_id == fid) with
            | some r => GetMetaOutcome.found r
            | none => GetMetaOutcome.notFound) = _
      rw [hfind]
    · show (if fid = "" then Except.ok GetFileOutcome.badRequest
            else match s.meta.find? (fun r : FileRecord => r.file_id == fid) with
            | none => Except.ok GetFileOutcome.notFound
            | some r =>
              Except.ok (GetFileOutcome.success ⟨s.bucket, r.s3_key, 3600⟩ "file" r.size))
          = _
      rw [if_neg hne, hfind]

/-- Witness for C7: a missing id is not-found on both handlers; the
stored record is found, with a 3600-second presign request. -/
theorem C7_lookup_by_id_witness :
    getMetadataResult stateA (pathEvent "missing-id") = .notFound ∧
    getFileResult stateA (pathEvent "missing-id") = .ok .notFound ∧
    getMetadataResult stateA (pathEvent "uuid-orig") = .found recA ∧
    getFileResult stateA (pathEvent "uuid-orig")
      = .ok (.success ⟨stateA.bucket, recA.s3_key, 3600⟩ "file" recA.size) := by
  have hno := (C7_lookup_by_id stateA "missing-id" (by decide)).1 rfl
  have hyes := (C7_lookup_by_id stateA "uuid-orig" (by decide)).2 recA rfl
  exact ⟨hno.1, hno.2.1, hyes.1, hyes.2⟩

/-- C9 (code bug): the download handler extracts the path id before
its `try` block, so the event `{'pathParameters': null}` raises an
uncaught `AttributeError` instead of returning a response value —
unlike its sibling metadata handler, which does the same extraction
inside `try` and returns a 500. -/
theorem C9_getFile_uncaught_attribute_error :
    getFileResult emptyState ⟨some none⟩ = .error .attributeError ∧
    getMetadataResult emptyState ⟨some none⟩ = .serverError :=
  ⟨rfl, rfl⟩

/-! ## C10: what exactly drives deduplication on the utf-8 path -/

/-- A non-base64 upload of `b` under a fixed name. -/
def bodyEvent (b : String) : UploadEvent :=
  ⟨some b, some (some [("filename", "f.txt")]), false⟩

/-- Two non-base64 uploads deduplicate: uploading `b2` right after
`b1` on a fresh store reports `Duplicate`. -/
def dedups (b1 b2 : String) : Prop :=
  ∃ r, (uploadRun (uploadRun emptyState (bodyEvent b1)).2.1 (bodyEvent b2)).1
    = .duplicate r

/-- The record the first `bodyEvent b` upload persists. -/
def rec1 (b : String) : FileRecord :=
  { file_id := freshId 0, name := "f.txt", size := (utf8Bytes b).length,
    type := "application/octet-stream", hash := sha256Hex (utf8Bytes b),
    created_at := emptyState.now,
    s3_key := "files/" ++ sha256Hex (utf8Bytes b) ++ "/" ++ "f.txt",
    download_url := "https://" ++ emptyState.bucket ++ ".s3.amazonaws.com/" ++
      ("files/" ++ sha256Hex (utf8Bytes b) ++ "/" ++ "f.txt") }

/-- Deduplication triggers exactly on digest equality: the duplicate
check compares only the stored `hash` attribute with the new digest. -/
theorem dedups_iff (b1 b2 : String) :
    dedups b1 b2 ↔ sha256Hex (utf8Bytes b1) = sha256Hex (utf8Bytes b2) := by
  have hmeta1 : (uploadRun emptyState (bodyEvent b1)).2.1.meta = [rec1 b1] := rfl
  constructor
  · rintro ⟨r, hr⟩
    by_contra hne
    have hb : ((rec1 b1).hash == sha256Hex (utf8Bytes b2)) = false :=
      beq_eq_false_iff_ne.mpr hne
    have hfind : (uploadRun emptyState (bodyEvent b1)).2.1.meta.find?
        (fun x : FileRecord => x.hash == sha256Hex (utf8Bytes b2)) = none := by
      rw [hmeta1]
      simp [List.find?_cons, hb]
    have h2 := uploadRun_new ((uploadRun emptyState (bodyEvent b1)).2.1) b2
      [("filename", "f.txt")] false (utf8Bytes b2) rfl hfind
    rw [show bodyEvent b2
        = (⟨some b2, some (some [("filename", "f.txt")]), false⟩ : UploadEvent) from rfl,
      h2] at hr
    simp [uploadNew] at hr
  · intro heq
    refine ⟨rec1 b1, ?_⟩
    have hb : ((rec1 b1).hash == sha256Hex (utf8Bytes b2)) = true := beq_iff_eq.mpr heq
    have hfind : (uploadRun emptyState (bodyEvent b1)).2.1.meta.find?
        (fun x : FileRecord => x.hash == sha256Hex (utf8Bytes b2)) = some (rec1 b1) := by
      rw [hmeta1]
      simp [List.find?_cons, hb]
    have h2 := uploadRun_dup ((uploadRun emptyState (bodyEvent b1)).2.1) b2
      [("filename", "f.txt")] false (utf8Bytes b2) (rec1 b1) rfl hfind
    rw [show bodyEvent b2
        = (⟨some b2, some (some [("filename", "f.txt")]), false⟩ : UploadEvent) from rfl,
      h2]
    rfl

/-- The string of `k` repeated `a` characters. -/
def repA (k : Nat) : String := String.mk (List.replicate k 'a')

theorem flatten_rep97 (k : Nat) :
    (List.replicate k [(97 : Nat)]).flatten = List.replicate k 97 := by
  induction k with
  | zero => rfl
  | succ k ih => rw [List.replicate_succ, List.flatten_cons, ih, List.replicate_succ]; rfl

theorem utf8_repA (k : Nat) : utf8Bytes (repA k) = List.replicate k 97 := by
  show ((List.replicate k 'a').map utf8Char).flatten = _
  rw [List.map_replicate]
  rw [show utf8Char 'a' = [(97 : Nat)] from rfl]
  exact flatten_rep97 k

/-- C10 counterexample: "deduplicates exactly when the UTF-8 encodings
agree" is false in principle — the digest space is finite, so by
pigeonhole two payloads of distinct lengths collide and deduplicate
although their encodings differ.  (The converse direction, equal
encodings always deduplicate, does hold.) -/
theorem C10_counterexample :
    ¬ (∀ b1 b2 : String, dedups b1 b2 ↔ utf8Bytes b1 = utf8Bytes b2) := by
  intro hcl
  obtain ⟨m, n, hne, hcol⟩ := sha256_collision
  have hd : dedups (repA m) (repA n) :=
    (dedups_iff _ _).mpr (by rw [utf8_repA, utf8_repA]; exact hcol)
  have heq := (hcl _ _).mp hd
  rw [utf8_repA, utf8_repA] at heq
  have hlen := congrArg List.length heq
  simp at hlen
  exact hne hlen

/-- Line 86: `file_size = len(file_bytes)`. -/
def uploadSizeOf (e : UploadEvent) : Option Nat := (decodePayload e).map List.length

/-- C10 (amended): for non-base64 uploads the engine consumes exactly
the UTF-8 encoding of the body — the size is its byte length and the
digest is its SHA-256 — and two such uploads deduplicate exactly when
those digests agree; equal encodings in particular always
deduplicate.  (Digest equality is implied by, but not equivalent to,
encoding equality: the digest space is finite.) -/
theorem C10_dedup_by_digest :
    ∀ b1 b2 : String,
      (dedups b1 b2 ↔ sha256Hex (utf8Bytes b1) = sha256Hex (utf8Bytes b2))
      ∧ (utf8Bytes b1 = utf8Bytes b2 → dedups b1 b2)
      ∧ decodePayload (bodyEvent b1) = some (utf8Bytes b1)
      ∧ contentHashOf (bodyEvent b1) = some (sha256Hex (utf8Bytes b1))
      ∧ uploadSizeOf (bodyEvent b1) = some (utf8Bytes b1).length := by
  intro b1 b2
  exact ⟨dedups_iff b1 b2, fun h => (dedups_iff b1 b2).mpr (by rw [h]), rfl, rfl, rfl⟩

/-- Witness for C10: re-uploading `b"hello"` deduplicates; the
recorded size is its UTF-8 byte length, 5. -/
theorem C10_dedup_by_digest_witness :
    dedups "hello" "hello" ∧ uploadSizeOf (bodyEvent "hello") = some 5 := by
  have h := C10_dedup_by_digest "hello" "hello"
  exact ⟨h.2.1 rfl, h.2.2.2.2⟩

end Dedup
